import Mathlib

/-!
Verification of the saucedemo-api-automation repository: a shallow embedding
of its schema-validation layer (zod object schemas declared in
playwright-api/api/schema.ts), its HTTP client factories
(playwright-api/api/client.ts and the axios client), and its endpoint
catalog (api/endpoints.ts), together with theorems settling the frozen
claims about them.
-/

set_option maxHeartbeats 1000000

/-- A JSON value, as received from the DummyJSON API and fed to the zod
schemas. Objects are association lists of key/value pairs; numbers are
modelled as rationals (JSON numbers carry no int/float distinction that
matters to these schemas). -/
inductive Json where
  | null
  | bool (b : Bool)
  | num (x : Rat)
  | str (s : String)
  | arr (elems : List Json)
  | obj (fields : List (String × Json))

mutual
/-- The schema language actually used in playwright-api/api/schema.ts:
z.number(), z.string(), z.string().email(), z.string().url(),
z.array(s), and z.object with required or .optional() fields. -/
inductive Schema where
  | number
  | string
  | email
  | url
  | array (elem : Schema)
  | object (fields : Fields)
/-- The field list of a z.object shape, in declaration order; the Bool
records whether the field carries .optional(). -/
inductive Fields where
  | nil
  | cons (name : String) (isOpt : Bool) (s : Schema) (rest : Fields)
end

/-- Builds a Fields chain from a list of (name, optional flag, schema). -/
def Fields.ofList : List (String × Bool × Schema) → Fields
  | [] => .nil
  | (k, o, s) :: rest => .cons k o s (Fields.ofList rest)

/-- One entry of a zod error: the path to the offending position and the
issue code. -/
structure ZodIssue where
  path : List String
  code : String

/-- First-match lookup of a key in a JSON object, mirroring property
access on a parsed JSON object. -/
def lookupField : List (String × Json) → String → Option Json
  | [], _ => none
  | (k, v) :: rest, key => if k = key then some v else lookupField rest key

/-- Splits a character list at every occurrence of the separator. -/
def splitOnChar (c : Char) : List Char → List (List Char)
  | [] => [[]]
  | a :: rest =>
    if a = c then [] :: splitOnChar c rest
    else
      match splitOnChar c rest with
      | [] => [[a]]
      | g :: gs => (a :: g) :: gs

/-- Tests whether the first list starts the second. -/
def listStarts : List Char → List Char → Bool
  | [], _ => true
  | _ :: _, [] => false
  | a :: as, b :: bs => a == b && listStarts as bs

/-- The email format check behind z.string().email(); abstracts the format
grammar zod applies (one at-sign separating a nonempty local part from a
dotted nonempty domain). The claims under verification do not depend on
the exact grammar, only on the check being applied uniformly. -/
def isEmail (s : String) : Bool :=
  match splitOnChar '@' s.toList with
  | [lp, dom] =>
    !lp.isEmpty && !dom.isEmpty &&
      decide ((splitOnChar '.' dom).length ≥ 2) &&
      (splitOnChar '.' dom).all (fun g => !g.isEmpty)
  | _ => false

/-- The URL format check behind z.string().url(); abstracts the grammar
zod applies, in the same sense as the email check. -/
def isUrl (s : String) : Bool :=
  listStarts "http://".toList s.toList || listStarts "https://".toList s.toList

/-- Folds a list of element validation outcomes into the collected issue
list and the list of validated values, preserving order. -/
def collectResults : List (Except (List ZodIssue) Json) → List ZodIssue × List Json
  | [] => ([], [])
  | .ok v :: rest => ((collectResults rest).1, v :: (collectResults rest).2)
  | .error es :: rest => (es ++ (collectResults rest).1, (collectResults rest).2)

mutual
/-- zod parsing (schema.parse and safeParse) over the schema language:
returns the validated (stripped) value, or the full list of issues.
Matches zod semantics: no coercion, all issues across an object or array
are collected and indexed by path, unknown object keys are stripped, and
an optional field may be absent but must conform when present. -/
def validate : Schema → List String → Json → Except (List ZodIssue) Json
  | .number, path, v =>
    match v with
    | .num x => .ok (.num x)
    | _ => .error [⟨path, "invalid_type: expected number"⟩]
  | .string, path, v =>
    match v with
    | .str t => .ok (.str t)
    | _ => .error [⟨path, "invalid_type: expected string"⟩]
  | .email, path, v =>
    match v with
    | .str t => if isEmail t then .ok (.str t) else .error [⟨path, "invalid_string: email"⟩]
    | _ => .error [⟨path, "invalid_type: expected string"⟩]
  | .url, path, v =>
    match v with
    | .str t => if isUrl t then .ok (.str t) else .error [⟨path, "invalid_string: url"⟩]
    | _ => .error [⟨path, "invalid_type: expected string"⟩]
  | .array es, path, v =>
    match v with
    | .arr xs =>
      match collectResults (xs.enum.map (fun p => validate es (path ++ [toString p.1]) p.2)) with
      | ([], outs) => .ok (.arr outs)
      | (e :: erest, _) => .error (e :: erest)
    | _ => .error [⟨path, "invalid_type: expected array"⟩]
  | .object fs, path, v =>
    match v with
    | .obj kvs =>
      match validateFields fs path kvs with
      | ([], outs) => .ok (.obj outs)
      | (e :: erest, _) => .error (e :: erest)
    | _ => .error [⟨path, "invalid_type: expected object"⟩]

/-- Field-wise validation of a z.object shape in declaration order:
collects the issues of every field and the validated output pairs of the
declared fields that are present. -/
def validateFields : Fields → List String → List (String × Json) → List ZodIssue × List (String × Json)
  | .nil, _, _ => ([], [])
  | .cons k opt s rest, path, kvs =>
    match lookupField kvs k with
    | none =>
      if opt then validateFields rest path kvs
      else (⟨path ++ [k], "invalid_type: required, received undefined"⟩ :: (validateFields rest path kvs).1,
            (validateFields rest path kvs).2)
    | some v =>
      match validate s (path ++ [k]) v with
      | .ok o =>
        ((validateFields rest path kvs).1, (k, o) :: (validateFields rest path kvs).2)
      | .error es =>
        (es ++ (validateFields rest path kvs).1, (validateFields rest path kvs).2)
end

/-- Whether a validation outcome is a success. -/
def isOk : Except (List ZodIssue) Json → Bool
  | .ok _ => true
  | .error _ => false

/-- The issue list of a validation outcome (empty on success). -/
def errsOf : Except (List ZodIssue) Json → List ZodIssue
  | .ok _ => []
  | .error es => es

mutual
/-- Written from the specification: a value conforms to a contract when
every required field it declares is present with the declared type, every
optional field is absent or of the declared type, arrays are element-wise
conformant, and the format checks hold for format-constrained strings. -/
def conforms : Schema → Json → Bool
  | .number, v => match v with | .num _ => true | _ => false
  | .string, v => match v with | .str _ => true | _ => false
  | .email, v => match v with | .str t => isEmail t | _ => false
  | .url, v => match v with | .str t => isUrl t | _ => false
  | .array es, v => match v with | .arr xs => xs.all (fun x => conforms es x) | _ => false
  | .object fs, v => match v with | .obj kvs => fieldsConform fs kvs | _ => false

/-- Written from the specification: each required field is present and
conformant and each optional field is absent or conformant. -/
def fieldsConform : Fields → List (String × Json) → Bool
  | .nil, _ => true
  | .cons k opt s rest, kvs =>
    (match lookupField kvs k with
     | none => opt
     | some v => conforms s v) && fieldsConform rest kvs
end

/-- Whether a field name is declared in a z.object shape. -/
def fieldsHasKey : Fields → String → Bool
  | .nil, _ => false
  | .cons k _ _ rest, key => k == key || fieldsHasKey rest key

/-- Membership of a (name, optional flag, schema) declaration in a
z.object shape. -/
def fieldMem (k : String) (opt : Bool) (s : Schema) : Fields → Prop
  | .nil => False
  | .cons k2 o2 s2 rest => (k = k2 ∧ opt = o2 ∧ s = s2) ∨ fieldMem k opt s rest

/-- Whether a given JSON object violates one declared field constraint:
a required field is missing, or a present field does not conform. -/
def fieldViolated (kvs : List (String × Json)) (k : String) (opt : Bool) (s : Schema) : Bool :=
  match lookupField kvs k with
  | none => !opt
  | some v => !conforms s v

/-! The concrete schema registry of playwright-api/api/schema.ts, field
for field in declaration order. -/

/-- Fields of loginRequestSchema (schema.ts lines 6-10). -/
def loginRequestFields : Fields := Fields.ofList
  [("username", false, .string),
   ("password", false, .string),
   ("expiresInMins", true, .number)]

/-- loginRequestSchema from schema.ts. -/
def loginRequestSchema : Schema := .object loginRequestFields

/-- Fields of loginResponseSchema (schema.ts lines 15-25). -/
def loginResponseFields : Fields := Fields.ofList
  [("id", false, .number),
   ("username", false, .string),
   ("email", false, .email),
   ("firstName", false, .string),
   ("lastName", false, .string),
   ("gender", false, .string),
   ("image", false, .url),
   ("token", false, .string),
   ("refreshToken", false, .string)]

/-- loginResponseSchema from schema.ts: note the token field, and the
absence of any accessToken field. -/
def loginResponseSchema : Schema := .object loginResponseFields

/-- Fields of productSchema (schema.ts lines 30-42). -/
def productFields : Fields := Fields.ofList
  [("id", false, .number),
   ("title", false, .string),
   ("description", false, .string),
   ("price", false, .number),
   ("discountPercentage", false, .number),
   ("rating", false, .number),
   ("stock", false, .number),
   ("brand", false, .string),
   ("category", false, .string),
   ("thumbnail", false, .url),
   ("images", false, .array .url)]

/-- productSchema from schema.ts. -/
def productSchema : Schema := .object productFields

/-- productListSchema from schema.ts. -/
def productListSchema : Schema := .object (Fields.ofList
  [("products", false, .array productSchema),
   ("total", false, .number),
   ("skip", false, .number),
   ("limit", false, .number)])

/-- Fields of cartProductSchema (schema.ts lines 57-66). -/
def cartProductFields : Fields := Fields.ofList
  [("id", false, .number),
   ("title", false, .string),
   ("price", false, .number),
   ("quantity", false, .number),
   ("total", false, .number),
   ("discountPercentage", false, .number),
   ("discountedPrice", false, .number),
   ("thumbnail", true, .string)]

/-- cartProductSchema from schema.ts. -/
def cartProductSchema : Schema := .object cartProductFields

/-- Fields of cartSchema (schema.ts lines 71-79): both total and
discountedTotal are declared as plain numbers, with no relation between
them. -/
def cartFields : Fields := Fields.ofList
  [("id", false, .number),
   ("products", false, .array cartProductSchema),
   ("total", false, .number),
   ("discountedTotal", false, .number),
   ("userId", false, .number),
   ("totalProducts", false, .number),
   ("totalQuantity", false, .number)]

/-- cartSchema from schema.ts. -/
def cartSchema : Schema := .object cartFields

/-- cartListSchema from schema.ts. -/
def cartListSchema : Schema := .object (Fields.ofList
  [("carts", false, .array cartSchema),
   ("total", false, .number),
   ("skip", false, .number),
   ("limit", false, .number)])

/-- addToCartRequestSchema from schema.ts. -/
def addToCartRequestSchema : Schema := .object (Fields.ofList
  [("userId", false, .number),
   ("products", false, .array (.object (Fields.ofList
      [("id", false, .number), ("quantity", false, .number)])))])

/-- Fields of userSchema (schema.ts lines 102-124). -/
def userFields : Fields := Fields.ofList
  [("id", false, .number),
   ("firstName", false, .string),
   ("lastName", false, .string),
   ("maidenName", true, .string),
   ("age", false, .number),
   ("gender", false, .string),
   ("email", false, .email),
   ("phone", false, .string),
   ("username", false, .string),
   ("birthDate", false, .string),
   ("image", false, .url),
   ("bloodGroup", true, .string),
   ("height", true, .number),
   ("weight", true, .number),
   ("eyeColor", true, .string),
   ("hair", true, .object (Fields.ofList
      [("color", false, .string), ("type", false, .string)]))]

/-- userSchema from schema.ts. -/
def userSchema : Schema := .object userFields

/-- Fields of errorResponseSchema (schema.ts lines 129-131). -/
def errorResponseFields : Fields := Fields.ofList [("message", false, .string)]

/-- errorResponseSchema from schema.ts. -/
def errorResponseSchema : Schema := .object errorResponseFields

/-! The HTTP client factories of playwright-api/api/client.ts. The
process environment is made an explicit parameter: env is the value of
process.env.API_BASE_URL (none when the variable is unset). -/

/-- JavaScript string disjunction as used in baseURL resolution:
a || b falls through to b when a is undefined or the empty string. -/
def jsOr (a : Option String) (b : String) : String :=
  match a with
  | none => b
  | some s => if s = "" then b else s

/-- The base URL resolution shared by both factories in client.ts:
baseURL || process.env.API_BASE_URL || the fixed DummyJSON host. -/
def resolveBaseURL (baseURL env : Option String) : String :=
  jsOr baseURL (jsOr env "https://dummyjson.com")

/-- The configuration a Playwright request context is created with. -/
structure ContextOptions where
  baseURL : String
  extraHTTPHeaders : List (String × String)

/-- createAPIContext from client.ts: resolves the base URL and sets the
Content-Type and Accept headers. -/
def createAPIContext (baseURL env : Option String) : ContextOptions :=
  { baseURL := resolveBaseURL baseURL env,
    extraHTTPHeaders :=
      [("Content-Type", "application/json"),
       ("Accept", "application/json")] }

/-- createAuthenticatedContext from client.ts: same resolution and
headers plus the bearer Authorization header. -/
def createAuthenticatedContext (token : String) (baseURL env : Option String) : ContextOptions :=
  { baseURL := resolveBaseURL baseURL env,
    extraHTTPHeaders :=
      [("Content-Type", "application/json"),
       ("Accept", "application/json"),
       ("Authorization", "Bearer " ++ token)] }

/-- Backward compatibility alias exported by client.ts. -/
def createAPIClient : Option String → Option String → ContextOptions := createAPIContext

/-! The axios client of the supertest suite (src/unnamed/part_005). -/

/-- BASE_URL from the axios client: process.env.API_BASE_URL or the
fixed DummyJSON host. -/
def BASE_URL (env : Option String) : String :=
  jsOr env "https://dummyjson.com"

/-- The configuration an axios instance is created with. -/
structure AxiosConfig where
  baseURL : String
  headers : List (String × String)
  timeout : Nat

/-- The default axios instance (axios.create call in part_005). -/
def api (env : Option String) : AxiosConfig :=
  { baseURL := BASE_URL env,
    headers :=
      [("Content-Type", "application/json"),
       ("Accept", "application/json")],
    timeout := 30000 }

/-- createAuthenticatedClient from part_005: same configuration plus the
bearer Authorization header. -/
def createAuthenticatedClient (token : String) (env : Option String) : AxiosConfig :=
  { baseURL := BASE_URL env,
    headers :=
      [("Content-Type", "application/json"),
       ("Accept", "application/json"),
       ("Authorization", "Bearer " ++ token)],
    timeout := 30000 }

/-! The axios failure model for the response interceptor of part_005. -/

/-- The response carried by an axios error when the server answered with
an HTTP error status. -/
structure AxiosHttpResponse where
  status : Nat
  data : Json

/-- The shape of an axios rejection as the interceptor inspects it:
an optional response, a flag for whether a request was sent, and a
message. -/
structure AxiosError where
  message : String
  response : Option AxiosHttpResponse
  request : Bool

/-- Modelled from the spec: the axios library itself (a dependency, not
in this repository) builds the rejection value for each failure kind.
The spec states that HTTP error statuses are transport successes carrying
an error payload, while network-level failures carry no response. -/
inductive FailedRequest where
  | httpError (status : Nat) (data : Json) (msg : String)
  | networkError (msg : String)
  | setupError (msg : String)

/-- Modelled from the spec: the rejection value axios hands to the
response interceptor for each failure kind. -/
def mkAxiosError : FailedRequest → AxiosError
  | .httpError st d m => { message := m, response := some ⟨st, d⟩, request := true }
  | .networkError m => { message := m, response := none, request := true }
  | .setupError m => { message := m, response := none, request := false }

/-- Which console.error branch the interceptor takes. -/
inductive InterceptorLog where
  | responseError (status : Nat) (data : Json)
  | requestError (msg : String)
  | plainError (msg : String)

/-- The response interceptor error handler of part_005: logs by failure
kind and re-rejects the very same error. -/
def responseInterceptorOnError (e : AxiosError) : InterceptorLog × AxiosError :=
  match e.response with
  | some r => (.responseError r.status r.data, e)
  | none => if e.request then (.requestError e.message, e) else (.plainError e.message, e)

/-! The endpoint catalog of api/endpoints.ts (src/unnamed/part_004).
Flat names mirror the nested object: endpoints.products.single is
endpointsProductsSingle, and so on. -/

/-- endpoints.auth.login -/
def endpointsAuthLogin : String := "/auth/login"

/-- endpoints.auth.me -/
def endpointsAuthMe : String := "/auth/me"

/-- endpoints.auth.refresh -/
def endpointsAuthRefresh : String := "/auth/refresh"

/-- endpoints.products.base -/
def endpointsProductsBase : String := "/products"

/-- endpoints.products.single -/
def endpointsProductsSingle (id : Nat) : String := "/products/" ++ toString id

/-- endpoints.products.search -/
def endpointsProductsSearch : String := "/products/search"

/-- endpoints.products.categories -/
def endpointsProductsCategories : String := "/products/categories"

/-- endpoints.products.category -/
def endpointsProductsCategory (category : String) : String := "/products/category/" ++ category

/-- endpoints.products.limit -/
def endpointsProductsLimit (limit : Nat) : String := "/products?limit=" ++ toString limit

/-- endpoints.products.skip -/
def endpointsProductsSkip (skip limit : Nat) : String :=
  "/products?skip=" ++ toString skip ++ "&limit=" ++ toString limit

/-- endpoints.carts.base -/
def endpointsCartsBase : String := "/carts"

/-- endpoints.carts.single -/
def endpointsCartsSingle (id : Nat) : String := "/carts/" ++ toString id

/-- endpoints.carts.user -/
def endpointsCartsUser (userId : Nat) : String := "/carts/user/" ++ toString userId

/-- endpoints.carts.add -/
def endpointsCartsAdd : String := "/carts/add"

/-- endpoints.carts.update -/
def endpointsCartsUpdate (id : Nat) : String := "/carts/" ++ toString id

/-- endpoints.carts.delete -/
def endpointsCartsDelete (id : Nat) : String := "/carts/" ++ toString id

/-- endpoints.users.base -/
def endpointsUsersBase : String := "/users"

/-- endpoints.users.single -/
def endpointsUsersSingle (id : Nat) : String := "/users/" ++ toString id

/-- endpoints.users.search -/
def endpointsUsersSearch : String := "/users/search"

/-- endpoints.users.filter -/
def endpointsUsersFilter : String := "/users/filter"

/-! Concrete sample values used to instantiate theorems with hypotheses. -/

/-- A well-formed DummyJSON login response body. -/
def sampleLoginFields : List (String × Json) :=
  [("id", .num 1),
   ("username", .str "emilys"),
   ("email", .str "emily@x.io"),
   ("firstName", .str "Emily"),
   ("lastName", .str "J"),
   ("gender", .str "female"),
   ("image", .str "https://x.io/i.png"),
   ("token", .str "tok1"),
   ("refreshToken", .str "tok2")]

/-- The sample login response as a JSON value. -/
def sampleLogin : Json := .obj sampleLoginFields

/-- A cart body whose discountedTotal exceeds its total; every field the
cart contract declares is present with the declared type. -/
def badCartFields : List (String × Json) :=
  [("id", .num 1),
   ("products", .arr []),
   ("total", .num 10),
   ("discountedTotal", .num 20),
   ("userId", .num 1),
   ("totalProducts", .num 0),
   ("totalQuantity", .num 0)]

/-- The violating cart as a JSON value. -/
def badCart : Json := .obj badCartFields

/-! General lemmas about the validator. -/

/-- Emptiness of an appended issue list. -/
theorem isEmpty_append (l1 l2 : List ZodIssue) :
    (l1 ++ l2).isEmpty = (l1.isEmpty && l2.isEmpty) := by
  cases l1 <;> simp [List.isEmpty]

/-- The issue list of an array validation is the collected issue list of
its element validations. -/
theorem errsOf_validate_arr (es : Schema) (path : List String) (xs : List Json) :
    errsOf (validate (.array es) path (.arr xs)) =
      (collectResults (xs.enum.map (fun p => validate es (path ++ [toString p.1]) p.2))).1 := by
  simp only [validate]
  split
  · rename_i outs heq
    rw [heq]
    rfl
  · rename_i e erest w heq
    rw [heq]
    rfl

/-- The issue list of an object validation is the issue list of its
field validation. -/
theorem errsOf_validate_obj (fs : Fields) (path : List String) (kvs : List (String × Json)) :
    errsOf (validate (.object fs) path (.obj kvs)) = (validateFields fs path kvs).1 := by
  simp only [validate]
  split
  · rename_i outs heq
    rw [heq]
    rfl
  · rename_i e erest w heq
    rw [heq]
    rfl

/-- A validation outcome is a success exactly when it carries no issue. -/
theorem isOk_eq_errsEmpty (s : Schema) (path : List String) (v : Json) :
    isOk (validate s path v) = (errsOf (validate s path v)).isEmpty := by
  cases s <;> cases v <;> simp only [validate]
  all_goals first
    | rfl
    | (split <;> simp_all [isOk, errsOf, List.isEmpty])

/-- The collected issue list is empty exactly when every element
outcome carries no issue. -/
theorem collectResults_fst_errs (l : List (Except (List ZodIssue) Json)) :
    (collectResults l).1.isEmpty = l.all (fun r => (errsOf r).isEmpty) := by
  induction l with
  | nil => simp [collectResults]
  | cons r rest ih =>
    cases r <;> simp [collectResults, errsOf, isEmpty_append, ih]

mutual
/-- Validation reports no issue exactly when the value conforms to the
contract in the sense of the specification. -/
theorem errsEmpty_eq_conforms (s : Schema) (path : List String) (v : Json) :
    (errsOf (validate s path v)).isEmpty = conforms s v := by
  cases s with
  | number => cases v <;> simp [validate, conforms, errsOf]
  | string => cases v <;> simp [validate, conforms, errsOf]
  | email =>
    cases v <;> try (simp [validate, conforms, errsOf]; done)
    case str t =>
      simp only [validate, conforms]
      split <;> simp_all [errsOf]
  | url =>
    cases v <;> try (simp [validate, conforms, errsOf]; done)
    case str t =>
      simp only [validate, conforms]
      split <;> simp_all [errsOf]
  | array es =>
    cases v <;> try (simp [validate, conforms, errsOf]; done)
    case arr xs =>
      rw [errsOf_validate_arr, collectResults_fst_errs]
      simp only [conforms]
      have h := enumFrom_errs_eq_conforms es path 0 xs
      simpa [List.enum] using h
  | object fs =>
    cases v <;> try (simp [validate, conforms, errsOf]; done)
    case obj kvs =>
      rw [errsOf_validate_obj]
      simp only [conforms]
      exact fieldsErrs_eq_conforms fs path kvs
termination_by (sizeOf s, 0)

/-- Every indexed element validation is issue-free exactly when every
element conforms. -/
theorem enumFrom_errs_eq_conforms (es : Schema) (path : List String) (n : Nat) (xs : List Json) :
    ((xs.enumFrom n).map (fun p => validate es (path ++ [toString p.1]) p.2)).all
        (fun r => (errsOf r).isEmpty) = xs.all (fun x => conforms es x) := by
  cases xs with
  | nil => simp [List.enumFrom]
  | cons x rest =>
    have h1 := errsEmpty_eq_conforms es (path ++ [toString n]) x
    have h2 := enumFrom_errs_eq_conforms es path (n + 1) rest
    simp only [List.enumFrom, List.map, List.all_cons]
    rw [h1, h2]
termination_by (sizeOf es, xs.length + 1)

/-- Object field validation reports no issue exactly when every declared
field constraint is met. -/
theorem fieldsErrs_eq_conforms (fs : Fields) (path : List String) (kvs : List (String × Json)) :
    (validateFields fs path kvs).1.isEmpty = fieldsConform fs kvs := by
  cases fs with
  | nil => simp [validateFields, fieldsConform]
  | cons k opt s rest =>
    simp only [validateFields, fieldsConform]
    cases hl : lookupField kvs k with
    | none =>
      cases opt <;> simp [fieldsErrs_eq_conforms rest path kvs]
    | some v =>
      cases h : validate s (path ++ [k]) v with
      | ok o =>
        have hc : conforms s v = true := by
          have h2 := errsEmpty_eq_conforms s (path ++ [k]) v
          rw [h] at h2
          simpa [errsOf] using h2.symm
        simp [h, hc, fieldsErrs_eq_conforms rest path kvs]
      | error es =>
        have hc : conforms s v = es.isEmpty := by
          have h2 := errsEmpty_eq_conforms s (path ++ [k]) v
          rw [h] at h2
          simpa [errsOf] using h2.symm
        simp [h, isEmpty_append, hc, fieldsErrs_eq_conforms rest path kvs, Bool.and_comm]
termination_by (sizeOf fs, 0)
end

/-- Validation succeeds exactly on conformant values: soundness and
completeness of the schema contracts. -/
theorem isOk_validate_eq_conforms (s : Schema) (path : List String) (v : Json) :
    isOk (validate s path v) = conforms s v :=
  (isOk_eq_errsEmpty s path v).trans (errsEmpty_eq_conforms s path v)

/-- Taking the length of the left part of an append returns it. -/
theorem take_len_left (l1 l2 : List String) : (l1 ++ l2).take l1.length = l1 := by
  induction l1 with
  | nil => simp
  | cons a t ih => simp [ih]

/-- Taking one more than the length of a list extended by one element
returns the whole extension. -/
theorem take_len_append (l : List String) (a : String) :
    (l ++ [a]).take (l.length + 1) = l ++ [a] := by
  have h : (l ++ [a]).length = l.length + 1 := by simp
  rw [← h, List.take_length]

/-- A list whose first element is forced by take 1 has that head. -/
theorem head_of_take_one (l : List String) (k : String) (h : l.take 1 = [k]) :
    l.head? = some k := by
  cases l <;> simp_all

/-- Every issue in a collected issue list comes from one of the element
outcomes. -/
theorem mem_collectResults_fst (l : List (Except (List ZodIssue) Json)) (e : ZodIssue)
    (he : e ∈ (collectResults l).1) : ∃ r ∈ l, e ∈ errsOf r := by
  induction l with
  | nil => simp [collectResults] at he
  | cons r rest ih =>
    cases r with
    | ok v =>
      simp only [collectResults] at he
      obtain ⟨r2, hr2, her2⟩ := ih he
      exact ⟨r2, List.mem_cons_of_mem _ hr2, her2⟩
    | error es =>
      simp only [collectResults] at he
      rcases List.mem_append.mp he with h1 | h2
      · exact ⟨.error es, List.mem_cons_self _ _, by simpa [errsOf] using h1⟩
      · obtain ⟨r2, hr2, her2⟩ := ih h2
        exact ⟨r2, List.mem_cons_of_mem _ hr2, her2⟩

mutual
/-- Every issue reported under a path extends that path: issues point
inside the region being validated. -/
theorem validate_errs_path (s : Schema) (path : List String) (v : Json) :
    ∀ e ∈ errsOf (validate s path v), e.path.take path.length = path := by
  cases s with
  | number => cases v <;> simp [validate, errsOf, List.take_length]
  | string => cases v <;> simp [validate, errsOf, List.take_length]
  | email =>
    cases v <;> try (simp [validate, errsOf, List.take_length]; done)
    case str t =>
      simp only [validate]
      split <;> simp [errsOf, List.take_length]
  | url =>
    cases v <;> try (simp [validate, errsOf, List.take_length]; done)
    case str t =>
      simp only [validate]
      split <;> simp [errsOf, List.take_length]
  | array es =>
    cases v <;> try (simp [validate, errsOf, List.take_length]; done)
    case arr xs =>
      intro e he
      rw [errsOf_validate_arr] at he
      obtain ⟨r, hr, her⟩ := mem_collectResults_fst _ e he
      obtain ⟨p, hp, rfl⟩ := List.mem_map.mp hr
      have hpp := validate_errs_path es (path ++ [toString p.1]) p.2 e her
      have hlen : (path ++ [toString p.1]).length = path.length + 1 := by simp
      rw [hlen] at hpp
      have hmin : e.path.take path.length = (e.path.take (path.length + 1)).take path.length := by
        rw [List.take_take]
        congr 1
        omega
      rw [hmin, hpp]
      exact take_len_left path [toString p.1]
  | object fs =>
    cases v <;> try (simp [validate, errsOf, List.take_length]; done)
    case obj kvs =>
      intro e he
      rw [errsOf_validate_obj] at he
      exact fields_errs_path fs path kvs e he
termination_by sizeOf s

/-- Issues of object fields extend the object path. -/
theorem fields_errs_path (fs : Fields) (path : List String) (kvs : List (String × Json)) :
    ∀ e ∈ (validateFields fs path kvs).1, e.path.take path.length = path := by
  cases fs with
  | nil => simp [validateFields]
  | cons k opt s rest =>
    intro e he
    simp only [validateFields] at he
    split at he
    · split at he
      · exact fields_errs_path rest path kvs e he
      · rcases List.mem_cons.mp (by simpa using he) with h1 | h2
        · subst h1
          exact take_len_left path [k]
        · exact fields_errs_path rest path kvs e h2
    · rename_i v2 hl
      split at he
      · rename_i o hv
        exact fields_errs_path rest path kvs e (by simpa using he)
      · rename_i es2 hv
        rcases List.mem_append.mp (by simpa using he) with h1 | h2
        · have hp := validate_errs_path s (path ++ [k]) v2 e (by simp [hv, errsOf, h1])
          have hlen : (path ++ [k]).length = path.length + 1 := by simp
          rw [hlen] at hp
          have hmin : e.path.take path.length = (e.path.take (path.length + 1)).take path.length := by
            rw [List.take_take]
            congr 1
            omega
          rw [hmin, hp]
          exact take_len_left path [k]
        · exact fields_errs_path rest path kvs e h2
termination_by sizeOf fs
end

/-- Every key/value pair in a validated object output is a declared
field of the schema: unknown keys are stripped. -/
theorem fields_outs_declared (fs : Fields) (path : List String) (kvs : List (String × Json)) :
    ∀ p ∈ (validateFields fs path kvs).2, fieldsHasKey fs p.1 = true := by
  cases fs with
  | nil => simp [validateFields]
  | cons k opt s rest =>
    intro p hp
    simp only [validateFields] at hp
    split at hp
    · split at hp
      · have hr := fields_outs_declared rest path kvs p hp
        simp [fieldsHasKey, hr]
      · have hr := fields_outs_declared rest path kvs p (by simpa using hp)
        simp [fieldsHasKey, hr]
    · rename_i v2 hl
      split at hp
      · rename_i o hv
        rcases List.mem_cons.mp (by simpa using hp) with h1 | h2
        · subst h1
          simp [fieldsHasKey]
        · have hr := fields_outs_declared rest path kvs p h2
          simp [fieldsHasKey, hr]
      · rename_i es2 hv
        have hr := fields_outs_declared rest path kvs p (by simpa using hp)
        simp [fieldsHasKey, hr]
termination_by sizeOf fs

/-- A key the schema does not declare is invisible to field validation:
prepending it to the object changes nothing. -/
theorem validateFields_skip_undeclared (fs : Fields) (path : List String)
    (kvs : List (String × Json)) (k : String) (x : Json)
    (h : fieldsHasKey fs k = false) :
    validateFields fs path ((k, x) :: kvs) = validateFields fs path kvs := by
  cases fs with
  | nil => simp [validateFields]
  | cons k2 opt s rest =>
    simp only [fieldsHasKey, Bool.or_eq_false_iff, beq_eq_false_iff_ne, ne_eq] at h
    have hrec := validateFields_skip_undeclared rest path kvs k x h.2
    simp only [validateFields, lookupField]
    rw [if_neg (fun he => h.1 he.symm), hrec]
termination_by sizeOf fs

/-- Lookup of a key absent from an association list yields none. -/
theorem lookupField_eq_none_of (l : List (String × Json)) (k : String)
    (h : ∀ p ∈ l, ¬ p.1 = k) : lookupField l k = none := by
  induction l with
  | nil => rfl
  | cons a rest ih =>
    obtain ⟨a1, a2⟩ := a
    simp only [lookupField]
    rw [if_neg (h (a1, a2) (by simp))]
    exact ih (fun p hp => h p (by simp [hp]))

/-- Inversion of a successful object validation: the input was an
object, field validation reported no issue, and the output is the
stripped field list. -/
theorem validate_object_ok (fs : Fields) (path : List String) (v r : Json)
    (h : validate (.object fs) path v = .ok r) :
    ∃ kvs, v = .obj kvs ∧ (validateFields fs path kvs).1 = [] ∧
      r = .obj (validateFields fs path kvs).2 := by
  cases v with
  | obj kvs =>
    simp only [validate] at h
    split at h
    · rename_i outs heq
      simp only [Except.ok.injEq] at h
      refine ⟨kvs, rfl, by rw [heq], ?_⟩
      rw [heq, ← h]
    · exact absurd h (by simp)
  | null => simp [validate] at h
  | bool b => simp [validate] at h
  | num x => simp [validate] at h
  | str t => simp [validate] at h
  | arr xs => simp [validate] at h

/-- Every violated declared field contributes an issue located at that
field: failures are enumerated, not truncated to the first. -/
theorem fields_violation_reported (fs : Fields) (path : List String)
    (kvs : List (String × Json)) (k : String) (opt : Bool) (s : Schema)
    (hmem : fieldMem k opt s fs) (hviol : fieldViolated kvs k opt s = true) :
    ∃ e ∈ (validateFields fs path kvs).1, e.path.take (path.length + 1) = path ++ [k] := by
  cases fs with
  | nil => exact absurd hmem (by simp [fieldMem])
  | cons k2 o2 s2 rest =>
    simp only [fieldMem] at hmem
    rcases hmem with ⟨hk, ho, hs⟩ | htail
    · subst hk
      subst ho
      subst hs
      unfold fieldViolated at hviol
      cases hl : lookupField kvs k with
      | none =>
        rw [hl] at hviol
        have ho2 : opt = false := by simpa using hviol
        subst ho2
        refine ⟨⟨path ++ [k], "invalid_type: required, received undefined"⟩, ?_, take_len_append path k⟩
        simp [validateFields, hl]
      | some v =>
        rw [hl] at hviol
        have hc : conforms s v = false := by simpa using hviol
        have hne : (errsOf (validate s (path ++ [k]) v)).isEmpty = false := by
          rw [errsEmpty_eq_conforms]
          exact hc
        cases hv : validate s (path ++ [k]) v with
        | ok o =>
          rw [hv] at hne
          simp [errsOf] at hne
        | error es =>
          rw [hv] at hne
          have hes : es ≠ [] := by
            intro h0
            rw [h0] at hne
            simp [errsOf] at hne
          obtain ⟨e, he⟩ := List.exists_mem_of_ne_nil es hes
          refine ⟨e, ?_, ?_⟩
          · simp [validateFields, hl, hv, List.mem_append, he]
          · have hp := validate_errs_path s (path ++ [k]) v e (by simp [hv, errsOf, he])
            simpa using hp
    · have ⟨e, he, hp⟩ := fields_violation_reported rest path kvs k opt s htail hviol
      refine ⟨e, ?_, hp⟩
      simp only [validateFields]
      split
      · split
        · exact he
        · simp [he]
      · split
        · simpa using he
        · simp [List.mem_append, he]
termination_by sizeOf fs

/-- A conformant object supplies every required declared field with a
conformant value. -/
theorem fieldsConform_required (fs : Fields) (kvs : List (String × Json)) (k : String) (s : Schema)
    (hmem : fieldMem k false s fs) (hconf : fieldsConform fs kvs = true) :
    ∃ v, lookupField kvs k = some v ∧ conforms s v = true := by
  cases fs with
  | nil => exact absurd hmem (by simp [fieldMem])
  | cons k2 o2 s2 rest =>
    simp only [fieldMem] at hmem
    simp only [fieldsConform, Bool.and_eq_true] at hconf
    rcases hmem with ⟨hk, ho, hs⟩ | htail
    · subst hk
      subst hs
      have hc := hconf.1
      cases hl : lookupField kvs k with
      | none =>
        rw [hl, ← ho] at hc
        simp at hc
      | some v =>
        rw [hl] at hc
        exact ⟨v, rfl, by simpa using hc⟩
    · exact fieldsConform_required rest kvs k s htail hconf.2
termination_by sizeOf fs

/-- A value conformant to the number contract is a JSON number. -/
theorem conforms_number_elim (v : Json) (h : conforms .number v = true) : ∃ x, v = .num x := by
  cases v with
  | num x => exact ⟨x, rfl⟩
  | null => simp [conforms] at h
  | bool b => simp [conforms] at h
  | str t => simp [conforms] at h
  | arr xs => simp [conforms] at h
  | obj kvs => simp [conforms] at h

/-- A value conformant to the string contract is a JSON string. -/
theorem conforms_string_elim (v : Json) (h : conforms .string v = true) : ∃ t, v = .str t := by
  cases v with
  | str t => exact ⟨t, rfl⟩
  | null => simp [conforms] at h
  | bool b => simp [conforms] at h
  | num x => simp [conforms] at h
  | arr xs => simp [conforms] at h
  | obj kvs => simp [conforms] at h

/-! Claim theorems. -/

/-- C1: for every JSON value and every schema contract of the registry,
validation succeeds if and only if every required declared field is
present with the declared type and every optional declared field is
absent or of the declared type (the conforms predicate, written from the
specification); a numeric string where a number is declared always
fails, never coerces; on any violation validation fails as a whole,
returning an error and no partly validated value. -/
theorem c1_validation_total :
    (∀ s path v, isOk (validate s path v) = conforms s v) ∧
    (∀ path t, isOk (validate .number path (.str t)) = false) ∧
    validate .number [] (.str "42") = .error [⟨[], "invalid_type: expected number"⟩] :=
  ⟨isOk_validate_eq_conforms,
   fun path t => by simp [validate, isOk],
   rfl⟩

/-- C2: loginResponseSchema accepts a value only if it carries string
fields token and refreshToken, and its parse result never contains an
accessToken field: the parse output holds only declared fields, and
accessToken is not among them, so any test reading accessToken off the
parse result reads an absent field. -/
theorem c2_login_schema_token_not_accessToken (v r : Json)
    (h : validate loginResponseSchema [] v = .ok r) :
    (∃ kvs, v = .obj kvs ∧
      (∃ t, lookupField kvs "token" = some (.str t)) ∧
      (∃ t2, lookupField kvs "refreshToken" = some (.str t2))) ∧
    (∃ outs, r = .obj outs ∧ lookupField outs "accessToken" = none) := by
  obtain ⟨kvs, hv, hemp, hr⟩ := validate_object_ok loginResponseFields [] v r h
  have hconf : fieldsConform loginResponseFields kvs = true := by
    rw [← fieldsErrs_eq_conforms, hemp]
    rfl
  have hmemtok : fieldMem "token" false .string loginResponseFields := by
    simp [loginResponseFields, Fields.ofList, fieldMem]
  have hmemrt : fieldMem "refreshToken" false .string loginResponseFields := by
    simp [loginResponseFields, Fields.ofList, fieldMem]
  obtain ⟨vt, hvt, hct⟩ := fieldsConform_required loginResponseFields kvs "token" .string hmemtok hconf
  obtain ⟨t, ht⟩ := conforms_string_elim vt hct
  obtain ⟨vr2, hvr2, hcr2⟩ :=
    fieldsConform_required loginResponseFields kvs "refreshToken" .string hmemrt hconf
  obtain ⟨t2, ht2⟩ := conforms_string_elim vr2 hcr2
  refine ⟨⟨kvs, hv, ⟨t, by rw [hvt, ht]⟩, ⟨t2, by rw [hvr2, ht2]⟩⟩, ?_⟩
  refine ⟨(validateFields loginResponseFields [] kvs).2, hr, ?_⟩
  apply lookupField_eq_none_of
  intro p hp hpk
  have hk := fields_outs_declared loginResponseFields [] kvs p hp
  rw [hpk] at hk
  simp [loginResponseFields, Fields.ofList, fieldsHasKey] at hk

/-- C2 witness: a concrete well-formed login response is accepted, and
the conclusions hold for it. -/
theorem c2_witness :
    (∃ kvs, sampleLogin = .obj kvs ∧
      (∃ t, lookupField kvs "token" = some (.str t)) ∧
      (∃ t2, lookupField kvs "refreshToken" = some (.str t2))) ∧
    (∃ outs, Json.obj sampleLoginFields = .obj outs ∧
      lookupField outs "accessToken" = none) :=
  c2_login_schema_token_not_accessToken sampleLogin (.obj sampleLoginFields) rfl

/-- C3 counterexample: the claim that every value accepted by cartSchema
satisfies discountedTotal <= total is false: badCart is accepted by
cartSchema while its discountedTotal (20) exceeds its total (10). -/
theorem c3_counterexample :
    isOk (validate cartSchema [] badCart) = true ∧
    lookupField badCartFields "total" = some (.num 10) ∧
    lookupField badCartFields "discountedTotal" = some (.num 20) ∧
    ¬ ((20 : Rat) ≤ (10 : Rat)) :=
  ⟨rfl, rfl, rfl, by norm_num⟩

/-- C3 (amended): cartSchema does not enforce discountedTotal <= total;
acceptance only guarantees that both fields are present JSON numbers
(the ordering is checked solely by an explicit runtime test assertion,
not by the contract). -/
theorem c3_amended_schema_constrains_only_types (v r : Json)
    (h : validate cartSchema [] v = .ok r) :
    ∃ kvs t d, v = .obj kvs ∧
      lookupField kvs "total" = some (.num t) ∧
      lookupField kvs "discountedTotal" = some (.num d) := by
  obtain ⟨kvs, hv, hemp, hr⟩ := validate_object_ok cartFields [] v r h
  have hconf : fieldsConform cartFields kvs = true := by
    rw [← fieldsErrs_eq_conforms, hemp]
    rfl
  have hmt : fieldMem "total" false .number cartFields := by
    simp [cartFields, Fields.ofList, fieldMem]
  have hmd : fieldMem "discountedTotal" false .number cartFields := by
    simp [cartFields, Fields.ofList, fieldMem]
  obtain ⟨vt, hvt, hct⟩ := fieldsConform_required cartFields kvs "total" .number hmt hconf
  obtain ⟨vd, hvd, hcd⟩ :=
    fieldsConform_required cartFields kvs "discountedTotal" .number hmd hconf
  obtain ⟨t, ht⟩ := conforms_number_elim vt hct
  obtain ⟨d, hd⟩ := conforms_number_elim vd hcd
  exact ⟨kvs, t, d, hv, by rw [hvt, ht], by rw [hvd, hd]⟩

/-- C3 amended witness at the concrete accepted cart. -/
theorem c3_amended_witness :
    ∃ kvs t d, badCart = .obj kvs ∧
      lookupField kvs "total" = some (.num t) ∧
      lookupField kvs "discountedTotal" = some (.num d) :=
  c3_amended_schema_constrains_only_types badCart (.obj badCartFields) rfl

/-- C4 counterexample: with the baseURL argument absent and the
environment variable API_BASE_URL set to the empty string, the client is
bound to the fixed default host, not to the set environment value; so an
environment value that is set is not always used, contradicting the
claim that a set API_BASE_URL is what the client is bound to. -/
theorem c4_counterexample :
    (createAPIContext none (some "")).baseURL = "https://dummyjson.com" ∧
    (createAuthenticatedContext "tok" none (some "")).baseURL = "https://dummyjson.com" ∧
    ¬ ("https://dummyjson.com" = "") :=
  ⟨rfl, rfl, by decide⟩

/-- C4 (amended): a non-empty baseURL argument wins; otherwise a
non-empty API_BASE_URL value wins; otherwise the fixed DummyJSON host is
used — identically in createAPIContext and createAuthenticatedContext.
An empty environment value, like an empty argument, is treated as
absent. -/
theorem c4_amended_resolution (token a e : String) (env baseArg : Option String) :
    (a ≠ "" → (createAPIContext (some a) env).baseURL = a ∧
      (createAuthenticatedContext token (some a) env).baseURL = a) ∧
    ((baseArg = none ∨ baseArg = some "") → e ≠ "" →
      (createAPIContext baseArg (some e)).baseURL = e ∧
      (createAuthenticatedContext token baseArg (some e)).baseURL = e) ∧
    ((baseArg = none ∨ baseArg = some "") →
      (createAPIContext baseArg none).baseURL = "https://dummyjson.com" ∧
      (createAPIContext baseArg (some "")).baseURL = "https://dummyjson.com" ∧
      (createAuthenticatedContext token baseArg none).baseURL = "https://dummyjson.com" ∧
      (createAuthenticatedContext token baseArg (some "")).baseURL = "https://dummyjson.com") := by
  refine ⟨?_, ?_, ?_⟩
  · intro ha
    constructor <;> simp [createAPIContext, createAuthenticatedContext, resolveBaseURL, jsOr, ha]
  · rintro (h | h) he <;> subst h <;>
      constructor <;> simp [createAPIContext, createAuthenticatedContext, resolveBaseURL, jsOr, he]
  · rintro (h | h) <;> subst h <;>
      refine ⟨?_, ?_, ?_, ?_⟩ <;>
      simp [createAPIContext, createAuthenticatedContext, resolveBaseURL, jsOr]

/-- C4 amended witness at concrete inputs. -/
theorem c4_amended_witness :
    (createAPIContext (some "http://a") none).baseURL = "http://a" ∧
    (createAPIContext none (some "http://e")).baseURL = "http://e" ∧
    (createAPIContext none (some "")).baseURL = "https://dummyjson.com" :=
  ⟨((c4_amended_resolution "t" "http://a" "http://e" none none).1 (by decide)).1,
   ((c4_amended_resolution "t" "http://a" "http://e" none none).2.1 (Or.inl rfl) (by decide)).1,
   ((c4_amended_resolution "t" "http://a" "http://e" none none).2.2 (Or.inl rfl)).2.1⟩

/-- C5: every failed axios request rejects with an error from which the
two failure kinds are distinguishable: the error carries a populated
response (with the HTTP status and payload) exactly when the server
responded with an error status, and carries a request but no response
exactly when the request was sent and no response arrived; the
interceptor of part_005 re-rejects the same error, preserving the
distinction. -/
theorem c5_failure_kinds_distinct :
    (∀ st d m, mkAxiosError (.httpError st d m) = ⟨m, some ⟨st, d⟩, true⟩) ∧
    (∀ m, mkAxiosError (.networkError m) = ⟨m, none, true⟩) ∧
    (∀ k, ((mkAxiosError k).response.isSome = true ↔ ∃ st d m, k = .httpError st d m)) ∧
    (∀ k, (((mkAxiosError k).response = none ∧ (mkAxiosError k).request = true) ↔
      ∃ m, k = .networkError m)) ∧
    (∀ k, (responseInterceptorOnError (mkAxiosError k)).2 = mkAxiosError k) := by
  refine ⟨fun st d m => rfl, fun m => rfl, ?_, ?_, ?_⟩
  · intro k
    cases k <;> simp [mkAxiosError]
  · intro k
    cases k <;> simp [mkAxiosError]
  · intro k
    cases k <;> simp [mkAxiosError, responseInterceptorOnError]

/-- C6: when validation of an object fails against a contract, the
resulting failure reports an issue for every violated declared field
constraint, each located at the path of that field, not only the first
violation encountered. -/
theorem c6_all_violations_reported (fs : Fields) (kvs : List (String × Json))
    (es : List ZodIssue) (k : String) (opt : Bool) (s : Schema)
    (herr : validate (.object fs) [] (.obj kvs) = .error es)
    (hmem : fieldMem k opt s fs) (hviol : fieldViolated kvs k opt s = true) :
    ∃ e ∈ es, e.path.head? = some k := by
  have hes : es = (validateFields fs [] kvs).1 := by
    simp only [validate] at herr
    split at herr
    · exact absurd herr (by simp)
    · rename_i e2 er2 w heq
      simp only [Except.error.injEq] at herr
      rw [← herr, heq]
  obtain ⟨e, he, hp⟩ := fields_violation_reported fs [] kvs k opt s hmem hviol
  refine ⟨e, by rw [hes]; exact he, ?_⟩
  apply head_of_take_one
  simpa using hp

/-- C6 witness: a login request missing username and carrying a numeric
password violates two constraints at once, and the failure reports both,
each at its field path. -/
theorem c6_witness :
    (∃ e ∈ [ZodIssue.mk ["username"] "invalid_type: required, received undefined",
            ZodIssue.mk ["password"] "invalid_type: expected string"],
       e.path.head? = some "username") ∧
    (∃ e ∈ [ZodIssue.mk ["username"] "invalid_type: required, received undefined",
            ZodIssue.mk ["password"] "invalid_type: expected string"],
       e.path.head? = some "password") :=
  ⟨c6_all_violations_reported loginRequestFields [("password", .num 5)] _ "username" false .string
      rfl (by simp [loginRequestFields, Fields.ofList, fieldMem]) rfl,
   c6_all_violations_reported loginRequestFields [("password", .num 5)] _ "password" false .string
      rfl (by simp [loginRequestFields, Fields.ofList, fieldMem]) rfl⟩

/-- C7: the authenticated factories differ from the plain ones only by
the appended bearer Authorization header: base URL resolution and the
Content-Type and Accept headers are identical, and for the axios pair
the timeout is identical too. -/
theorem c7_auth_adds_only_authorization (token : String) (baseURL env : Option String) :
    (createAuthenticatedContext token baseURL env).baseURL = (createAPIContext baseURL env).baseURL ∧
    (createAuthenticatedContext token baseURL env).extraHTTPHeaders =
      (createAPIContext baseURL env).extraHTTPHeaders ++ [("Authorization", "Bearer " ++ token)] ∧
    (createAuthenticatedClient token env).baseURL = (api env).baseURL ∧
    (createAuthenticatedClient token env).headers =
      (api env).headers ++ [("Authorization", "Bearer " ++ token)] ∧
    (createAuthenticatedClient token env).timeout = (api env).timeout :=
  ⟨rfl, rfl, rfl, rfl, rfl⟩

/-- C8: the parameterized endpoint catalog entries are pure functions of
their arguments producing exactly the documented paths, and the cart
single, update and delete entries coincide. -/
theorem c8_endpoints_pure_paths (id userId skip limit : Nat) (category : String) :
    endpointsProductsSingle id = "/products/" ++ toString id ∧
    endpointsCartsSingle id = "/carts/" ++ toString id ∧
    endpointsCartsUpdate id = endpointsCartsSingle id ∧
    endpointsCartsDelete id = endpointsCartsSingle id ∧
    endpointsCartsUser userId = "/carts/user/" ++ toString userId ∧
    endpointsProductsCategory category = "/products/category/" ++ category ∧
    endpointsProductsSkip skip limit =
      "/products?skip=" ++ toString skip ++ "&limit=" ++ toString limit :=
  ⟨rfl, rfl, rfl, rfl, rfl, rfl, rfl⟩

/-- C9: fields present in the input but not declared by the schema never
cause validation to fail (prepending an undeclared field leaves the
whole validation outcome unchanged), and the parse result contains only
declared fields: extra data is silently stripped. -/
theorem c9_unknown_fields_stripped :
    (∀ fs path kvs k x, fieldsHasKey fs k = false →
      validate (.object fs) path (.obj ((k, x) :: kvs)) =
        validate (.object fs) path (.obj kvs)) ∧
    (∀ fs path kvs r, validate (.object fs) path (.obj kvs) = .ok r →
      ∃ outs, r = .obj outs ∧ ∀ p ∈ outs, fieldsHasKey fs p.1 = true) := by
  constructor
  · intro fs path kvs k x h
    simp only [validate]
    rw [validateFields_skip_undeclared fs path kvs k x h]
  · intro fs path kvs r h
    obtain ⟨kvs2, hv, hemp, hr⟩ := validate_object_ok fs path (.obj kvs) r h
    have hk : kvs = kvs2 := by injection hv
    subst hk
    exact ⟨(validateFields fs path kvs).2, hr, fields_outs_declared fs path kvs⟩

/-- C9 witness: an undeclared extra field leaves validation of a
concrete error response unchanged, and the accepted output contains only
declared fields. -/
theorem c9_witness :
    validate (.object errorResponseFields) []
        (.obj [("extra", .num 1), ("message", .str "err")]) =
      validate (.object errorResponseFields) [] (.obj [("message", .str "err")]) ∧
    (∃ outs, Json.obj [("message", Json.str "err")] = .obj outs ∧
      ∀ p ∈ outs, fieldsHasKey errorResponseFields p.1 = true) :=
  ⟨c9_unknown_fields_stripped.1 errorResponseFields [] [("message", .str "err")] "extra" (.num 1)
      (by simp [errorResponseFields, Fields.ofList, fieldsHasKey]),
   c9_unknown_fields_stripped.2 errorResponseFields [] [("message", .str "err")]
      (.obj [("message", .str "err")]) rfl⟩

/-- C10: passing the empty string as baseURL is indistinguishable from
passing no argument: the whole resulting configuration is equal; the
client then binds to a non-empty API_BASE_URL value, else to the fixed
host; a supplied empty base URL is never used as the base URL. -/
theorem c10_empty_baseURL_argument (env : Option String) (token : String) :
    createAPIContext (some "") env = createAPIContext none env ∧
    createAuthenticatedContext token (some "") env = createAuthenticatedContext token none env ∧
    (∀ e, env = some e → e ≠ "" → (createAPIContext (some "") env).baseURL = e) ∧
    ((env = none ∨ env = some "") →
      (createAPIContext (some "") env).baseURL = "https://dummyjson.com") ∧
    (createAPIContext (some "") env).baseURL ≠ "" := by
  refine ⟨?_, ?_, ?_, ?_, ?_⟩
  · simp [createAPIContext, resolveBaseURL, jsOr]
  · simp [createAuthenticatedContext, resolveBaseURL, jsOr]
  · intro e he hne
    subst he
    simp [createAPIContext, resolveBaseURL, jsOr, hne]
  · rintro (h | h) <;> subst h <;> simp [createAPIContext, resolveBaseURL, jsOr]
  · cases env with
    | none => simp [createAPIContext, resolveBaseURL, jsOr]
    | some e =>
      by_cases he : e = "" <;> simp [createAPIContext, resolveBaseURL, jsOr, he]

/-- C10 witness at concrete inputs. -/
theorem c10_witness :
    (createAPIContext (some "") (some "http://h")).baseURL = "http://h" ∧
    (createAPIContext (some "") none).baseURL = "https://dummyjson.com" :=
  ⟨(c10_empty_baseURL_argument (some "http://h") "t").2.2.1 "http://h" rfl (by decide),
   (c10_empty_baseURL_argument none "t").2.2.2.1 (Or.inl rfl)⟩
